import Mathlib

/-!
# Campus Portal backend — shallow embedding

A Lean model of the request handlers in `src/main.py` together with the
record shapes of `src/schemas.py`, used to verify the natural-language
specification of the service.  Documents are modelled as association lists
of JSON-like values, collections as Lean lists of fixed record structures,
and the Mongo primitives (`find_one`, `update_one`, `delete_one`,
`count_documents`, insertion with a generated id) as explicit functions on
those lists.  Python floats are idealised as exact rationals; `datetime`
values are idealised as natural-number timestamps.
-/

set_option autoImplicit false

namespace CampusPortal

/-! ## JSON-like values (for `serialize_id`) -/

/-- A dynamic (Python/BSON) value as it can appear in a stored document.
`dt` and `date` model `datetime.datetime` and `datetime.date`; `objid`
models a BSON `ObjectId`. -/
inductive Value where
  | str : String → Value
  | int : Int → Value
  | num : ℚ → Value
  | bool : Bool → Value
  | none : Value
  | dt : Nat → Value
  | date : Nat → Value
  | objid : Nat → Value
  deriving DecidableEq, Repr

/-- Model of Python `str(...)` on the values an `_id` field can hold
(an injective rendering; only its behaviour on `objid` matters). -/
def pyStr : Value → String
  | .str s => s
  | .int i => toString i
  | .num q => toString q.num ++ "/" ++ toString q.den
  | .bool b => toString b
  | .none => "None"
  | .dt n => "dt " ++ toString n
  | .date n => "date " ++ toString n
  | .objid n => "oid " ++ toString n

/-- Model of `datetime.isoformat()` / `date.isoformat()` (an injective
rendering of the timestamp; its exact shape is irrelevant to the claims). -/
def isoformat : Value → String
  | .dt n => "T" ++ toString n
  | .date n => "D" ++ toString n
  | v => pyStr v

/-- A Python dict, as an insertion-ordered association list. -/
abbrev Doc := List (String × Value)

/-- `d.get(k)`: the first value bound to `k`. -/
def Doc.get (d : Doc) (k : String) : Option Value :=
  (List.find? (fun p => p.1 = k) d).map (·.2)

/-- `d.pop(k)` (the removal part): every binding of `k` removed. -/
def Doc.erase (d : Doc) (k : String) : Doc :=
  List.filter (fun p => p.1 ≠ k) d

/-- `d[k] = v`: overwrite in place when the key exists, append otherwise. -/
def Doc.set (d : Doc) (k : String) (v : Value) : Doc :=
  if (List.find? (fun p => p.1 = k) d).isSome then
    List.map (fun p => if p.1 = k then (k, v) else p) d
  else
    d ++ [(k, v)]

/-- The per-value part of the `datetime`/`date` → isoformat loop of
`serialize_id`. -/
def serializeVal : Value → Value
  | .dt n => .str (isoformat (.dt n))
  | .date n => .str (isoformat (.date n))
  | v => v

/-- `serialize_id` from `src/main.py`: on a falsy (empty) dict return it
unchanged; otherwise rename `_id` to a stringified `id` and convert every
`datetime`/`date` value to its isoformat string. -/
def serialize_id (doc : Doc) : Doc :=
  if doc = ([] : Doc) then doc
  else
    let d :=
      match Doc.get doc "_id" with
      | some v => Doc.set (Doc.erase doc "_id") "id" (.str (pyStr v))
      | Option.none => doc
    List.map (fun p => (p.1, serializeVal p.2)) d

/-! ## Identifier codec (`oid`) -/

/-- The numeric value of one hexadecimal digit, `none` on any other
character (`bson.ObjectId` accepts exactly 24 hex digits). -/
def hexVal (c : Char) : Option Nat :=
  if '0' ≤ c ∧ c ≤ '9' then some (c.toNat - '0'.toNat)
  else if 'a' ≤ c ∧ c ≤ 'f' then some (c.toNat - 'a'.toNat + 10)
  else if 'A' ≤ c ∧ c ≤ 'F' then some (c.toNat - 'A'.toNat + 10)
  else none

/-- `ObjectId(id_str)`: succeeds exactly on 24-character hex strings,
returning the numeric identifier they denote. -/
def decodeOid (s : String) : Option Nat :=
  if s.length = 24 ∧ s.toList.all (fun c => (hexVal c).isSome) then
    some (s.toList.foldl (fun acc c => acc * 16 + ((hexVal c).getD 0)) 0)
  else
    none

/-! ## Python `round(x, 2)` on exact rationals -/

/-- Floor of a rational, computably (`Int.fdiv` rounds toward `-∞` and the
denominator is positive, so this is the mathematical floor). -/
def ratFloor (q : ℚ) : ℤ :=
  Int.fdiv q.num (q.den : ℤ)

/-- Round a rational to the nearest integer, ties to even
(Python's `round` on floats, idealised to exact arithmetic). -/
def roundHalfEven (q : ℚ) : ℤ :=
  let f := ratFloor q
  if q - f < 1/2 then f
  else if 1/2 < q - f then f + 1
  else if 2 ∣ f then f else f + 1

/-- Python `round(x, 2)`. -/
def pyRound2 (q : ℚ) : ℚ :=
  (roundHalfEven (q * 100) : ℚ) / 100

/-! ## Mongo primitives

`update_one` modifies the first matching document only; `delete_one`
removes the first matching document; both report matched/deleted counts
that the handlers branch on. -/

/-- Apply `f` to the first element satisfying `p`, leaving the rest
unchanged (the write part of Mongo `update_one` with `$set`). -/
def updateFirst {α : Type} (p : α → Bool) (f : α → α) : List α → List α
  | [] => []
  | x :: xs => if p x then f x :: xs else x :: updateFirst p f xs

/-- `matched_count` of `update_one` / `deleted_count` of `delete_one`. -/
def matchCount {α : Type} (p : α → Bool) (l : List α) : Nat :=
  if l.any p then 1 else 0

/-! ## Collections and stores

Each store is the list of documents of one collection plus a counter
producing the next store-generated identifier. -/

/-- A stored `campususer` document. -/
structure UserDoc where
  _id : Nat
  role : String
  name : String
  email : String
  mobile : Option String
  roll : Option String
  updated_at : Nat
  deriving DecidableEq, Repr

structure UserStore where
  docs : List UserDoc
  nextId : Nat
  deriving DecidableEq, Repr

/-- A stored `event` document. -/
structure EventDoc where
  _id : Nat
  title : String
  description : Option String
  date : Nat
  location : Option String
  created_by_role : String
  deriving DecidableEq, Repr

structure EventStore where
  docs : List EventDoc
  nextId : Nat
  deriving DecidableEq, Repr

/-- A stored `attendancerecord` document. -/
structure AttendanceRecordDoc where
  _id : Nat
  roll : String
  attendance_date : Nat
  status : String
  marked_by_role : String
  deriving DecidableEq, Repr

structure AttStore where
  docs : List AttendanceRecordDoc
  nextId : Nat
  deriving DecidableEq, Repr

/-- A stored `attendanceoverride` document.  `manual_percentage = none`
models a stored value that is not numeric (the summary handler guards on
`isinstance(..., (int, float))`). -/
structure OverrideDoc where
  _id : Nat
  roll : String
  manual_percentage : Option ℚ
  deriving DecidableEq, Repr

structure OvStore where
  docs : List OverrideDoc
  nextId : Nat
  deriving DecidableEq, Repr

/-- The outcome of a route handler: a JSON result, the literal
`{"updated": false}` acknowledgement, a raised `HTTPException`
(status code, detail), or an unhandled exception escaping the handler. -/
inductive HOut (α : Type) where
  | ok : α → HOut α
  | unchanged : HOut α
  | httpError : Nat → String → HOut α
  | crash : String → HOut α
  deriving DecidableEq, Repr

/-! ## Auth handler (`POST /auth/demo-login`) -/

structure DemoLoginRequest where
  role : String
  name : String
  email : String
  mobile : Option String
  roll : Option String
  deriving DecidableEq, Repr

/-- The `$set` document of `demo_login`: `payload.model_dump()` plus
`updated_at` — all five payload fields are written, omitted optional
fields as `None`. -/
def applyDemoLoginSet (p : DemoLoginRequest) (now : Nat) (d : UserDoc) : UserDoc :=
  { d with role := p.role, name := p.name, email := p.email,
           mobile := p.mobile, roll := p.roll, updated_at := now }

/-- `demo_login` from `src/main.py`: 500 when the store is unconfigured;
otherwise upsert by email (update the first email match by its `_id` and
re-read, or insert a fresh document).  The insert branch goes through
`create_document`, which is modelled from the spec (§4.1): insert with a
store-generated fresh id, returning the id. -/
def demo_login (db : Option UserStore) (p : DemoLoginRequest) (now : Nat) :
    Option UserStore × HOut (Option UserDoc) :=
  match db with
  | none => (none, .httpError 500 "Database not configured")
  | some s =>
    match s.docs.find? (fun d => d.email == p.email) with
    | some existing =>
      let docs1 := updateFirst (fun d => d._id == existing._id) (applyDemoLoginSet p now) s.docs
      (some ⟨docs1, s.nextId⟩, .ok (docs1.find? (fun d => d._id == existing._id)))
    | none =>
      let newDoc : UserDoc :=
        ⟨s.nextId, p.role, p.name, p.email, p.mobile, p.roll, now⟩
      let docs1 := s.docs ++ [newDoc]
      (some ⟨docs1, s.nextId + 1⟩, .ok (docs1.find? (fun d => d._id == s.nextId)))

/-! ## User handler (`PUT /users/{user_id}`) -/

structure UpdateUserRequest where
  name : Option String
  email : Option String
  mobile : Option String
  roll : Option String
  deriving DecidableEq, Repr

/-- `payload.model_dump(exclude_none=True)` is empty. -/
def UpdateUserRequest.isEmptyPatch (p : UpdateUserRequest) : Bool :=
  p.name.isNone && p.email.isNone && p.mobile.isNone && p.roll.isNone

/-- The `$set` document of `update_user`: only the supplied (non-`None`)
fields plus `updated_at`. -/
def applyUserPatch (p : UpdateUserRequest) (now : Nat) (d : UserDoc) : UserDoc :=
  { d with
    name := p.name.getD d.name,
    email := p.email.getD d.email,
    mobile := match p.mobile with | some m => some m | none => d.mobile,
    roll := match p.roll with | some r => some r | none => d.roll,
    updated_at := now }

/-- `update_user` from `src/main.py`.  Order of checks follows the code:
store-unconfigured check, then the empty-patch early return, and only
then is the path id decoded (inside the `update_one` call). -/
def update_user (db : Option UserStore) (idStr : String) (p : UpdateUserRequest) (now : Nat) :
    Option UserStore × HOut (Option UserDoc) :=
  match db with
  | none => (none, .httpError 500 "Database not configured")
  | some s =>
    if p.isEmptyPatch then (some s, .unchanged)
    else
      match decodeOid idStr with
      | none => (some s, .httpError 400 "Invalid ID format")
      | some i =>
        let docs1 := updateFirst (fun d => d._id == i) (applyUserPatch p now) s.docs
        if matchCount (fun d => d._id == i) s.docs = 0 then
          (some ⟨docs1, s.nextId⟩, .httpError 404 "User not found")
        else
          (some ⟨docs1, s.nextId⟩, .ok (docs1.find? (fun d => d._id == i)))

/-! ## Event handlers -/

structure EventCreateRequest where
  title : String
  description : Option String
  date : Nat
  location : Option String
  created_by_role : String
  deriving DecidableEq, Repr

/-- `list_events` from `src/main.py`: no store-unconfigured guard — with
no connection configured, `db.event` raises an unhandled
`AttributeError`.  Otherwise: all events sorted ascending by date, capped
at `limit`. -/
def list_events (db : Option EventStore) (limit : Nat) : HOut (List EventDoc) :=
  match db with
  | none => .crash "AttributeError"
  | some s => .ok ((s.docs.mergeSort (fun a b => a.date ≤ b.date)).take limit)

/-- `update_event` from `src/main.py`: decode the id (400 on failure),
`update_one` with the full event payload, 404 when nothing matched,
re-read otherwise.  No store-unconfigured guard. -/
def update_event (db : Option EventStore) (idStr : String) (p : EventCreateRequest) :
    Option EventStore × HOut (Option EventDoc) :=
  match db with
  | none => (none, .crash "AttributeError")
  | some s =>
    match decodeOid idStr with
    | none => (some s, .httpError 400 "Invalid ID format")
    | some i =>
      let docs1 := updateFirst (fun d => d._id == i)
        (fun d => { d with title := p.title, description := p.description,
                           date := p.date, location := p.location,
                           created_by_role := p.created_by_role }) s.docs
      if matchCount (fun d => d._id == i) s.docs = 0 then
        (some ⟨docs1, s.nextId⟩, .httpError 404 "Event not found")
      else
        (some ⟨docs1, s.nextId⟩, .ok (docs1.find? (fun d => d._id == i)))

/-- `delete_event` from `src/main.py`: decode the id (400 on failure),
`delete_one`, 404 when nothing was deleted.  No store-unconfigured
guard. -/
def delete_event (db : Option EventStore) (idStr : String) :
    Option EventStore × HOut Bool :=
  match db with
  | none => (none, .crash "AttributeError")
  | some s =>
    match decodeOid idStr with
    | none => (some s, .httpError 400 "Invalid ID format")
    | some i =>
      let docs1 := s.docs.eraseP (fun d => d._id == i)
      if matchCount (fun d => d._id == i) s.docs = 0 then
        (some ⟨docs1, s.nextId⟩, .httpError 404 "Event not found")
      else
        (some ⟨docs1, s.nextId⟩, .ok true)

/-! ## Attendance handlers -/

structure AttendanceMark where
  roll : String
  status : String
  deriving DecidableEq, Repr

/-- Modelled from the spec: `create_document` lives in `database.py`,
which is not among the sources; per §4.1 it inserts one record with a
store-generated fresh identifier and returns that identifier. -/
def create_document_att (s : AttStore) (roll : String) (dateV : Nat) (status : String) :
    AttStore × Nat :=
  (⟨s.docs ++ [⟨s.nextId, roll, dateV, status, "teacher"⟩], s.nextId + 1⟩, s.nextId)

/-- The insertion loop of `mark_attendance`: one `AttendanceRecord` per
entry, collecting the generated ids in order. -/
def markLoop (dateV : Nat) : AttStore → List AttendanceMark → AttStore × List Nat
  | s, [] => (s, [])
  | s, e :: rest =>
    let (s1, insId) := create_document_att s e.roll dateV e.status
    let (s2, ids) := markLoop dateV s1 rest
    (s2, insId :: ids)

/-- `mark_attendance` from `src/main.py`: 400 `"No entries to mark"` on an
empty entries list, otherwise insert one record per entry and return the
count and generated ids. -/
def mark_attendance (s : AttStore) (dateV : Nat) (entries : List AttendanceMark) :
    AttStore × HOut (Nat × List Nat) :=
  if entries.isEmpty then (s, .httpError 400 "No entries to mark")
  else
    let (s1, ids) := markLoop dateV s entries
    (s1, .ok (ids.length, ids))

/-- `set_manual_percentage` from `src/main.py`: upsert by roll.  The
update branch `$set`s the raw payload without any validation; only the
insert branch constructs an `AttendanceOverride`, whose pydantic range
constraint (`0 ≤ manual_percentage ≤ 100`, `src/schemas.py`) raises an
unhandled `ValidationError` inside the handler when out of range.
Insertion goes through `create_document`, modelled from the spec
(§4.1). -/
def set_manual_percentage (s : OvStore) (roll : String) (mp : ℚ) :
    OvStore × HOut (Option OverrideDoc) :=
  match s.docs.find? (fun o => o.roll == roll) with
  | some existing =>
    let docs1 := updateFirst (fun o => o._id == existing._id)
      (fun o => { o with roll := roll, manual_percentage := some mp }) s.docs
    (⟨docs1, s.nextId⟩, .ok (docs1.find? (fun o => o._id == existing._id)))
  | none =>
    if 0 ≤ mp ∧ mp ≤ 100 then
      let docs1 := s.docs ++ [⟨s.nextId, roll, some mp⟩]
      (⟨docs1, s.nextId + 1⟩, .ok (docs1.find? (fun o => o._id == s.nextId)))
    else
      (s, .crash "ValidationError")

structure AttendanceSummary where
  roll : String
  presentDays : Nat
  absentDays : Nat
  percentage : ℚ
  deriving DecidableEq, Repr

/-- `attendance_summary` from `src/main.py`: count present and absent
records for the roll, compute the ratio percentage (0 when there are no
records), replace it by the override value when an override exists with a
numeric `manual_percentage`, and round to 2 decimal places. -/
def attendance_summary (recs : List AttendanceRecordDoc) (ovs : List OverrideDoc)
    (roll : String) : AttendanceSummary :=
  let total_present := (recs.filter (fun r => r.roll == roll && r.status == "present")).length
  let total_absent := (recs.filter (fun r => r.roll == roll && r.status == "absent")).length
  let total := total_present + total_absent
  let computed : ℚ := if total > 0 then (total_present : ℚ) / (total : ℚ) * 100 else 0
  let pct : ℚ :=
    match ovs.find? (fun o => o.roll == roll) with
    | some o =>
      match o.manual_percentage with
      | some m => m
      | none => computed
    | none => computed
  ⟨roll, total_present, total_absent, pyRound2 pct⟩

/-- Number of `campususer` documents carrying a given email. -/
def countEmail (s : UserStore) (e : String) : Nat :=
  (s.docs.filter (fun d => d.email == e)).length

/-- Store sanity: the generated identifiers are pairwise distinct and the
id counter dominates every identifier in use (true of every store reachable
from an empty one through the insertion primitive). -/
def UserStore.wf (s : UserStore) : Prop :=
  (s.docs.map (fun d => d._id)).Nodup ∧ ∀ d ∈ s.docs, d._id < s.nextId

/-! ## General lemmas about the Mongo primitives -/

theorem updateFirst_of_forall_not {α : Type} (p : α → Bool) (f : α → α) :
    ∀ l : List α, (∀ x ∈ l, p x = false) → updateFirst p f l = l
  | [], _ => rfl
  | x :: xs, h => by
    have hx : p x = false := h x (List.mem_cons_self x xs)
    simp only [updateFirst, hx, if_neg Bool.false_ne_true, cond_false]
    rw [updateFirst_of_forall_not p f xs (fun y hy => h y (List.mem_cons_of_mem x hy))]

theorem updateFirst_append_left {α : Type} (p : α → Bool) (f : α → α) :
    ∀ l₁ l₂ : List α, (∀ x ∈ l₁, p x = false) →
      updateFirst p f (l₁ ++ l₂) = l₁ ++ updateFirst p f l₂
  | [], _, _ => rfl
  | x :: xs, l₂, h => by
    have hx : p x = false := h x (List.mem_cons_self x xs)
    have ih := updateFirst_append_left p f xs l₂ (fun y hy => h y (List.mem_cons_of_mem x hy))
    simp only [List.cons_append, updateFirst, hx, Bool.false_eq_true, if_false, List.append_eq]
    rw [ih]

theorem updateFirst_cons_of_pos {α : Type} (p : α → Bool) (f : α → α) (x : α) (l : List α)
    (h : p x = true) : updateFirst p f (x :: l) = f x :: l := by
  simp [updateFirst, h]

theorem mem_updateFirst_of_neg {α : Type} (p : α → Bool) (f : α → α) :
    ∀ l : List α, ∀ x ∈ l, p x = false → x ∈ updateFirst p f l
  | y :: ys, x, hx, hpx => by
    rcases List.mem_cons.mp hx with rfl | hmem
    · simp [updateFirst, hpx]
    · by_cases hpy : p y = true
      · simp [updateFirst, hpy, List.mem_cons_of_mem _ hmem]
      · simp only [updateFirst, hpy, if_neg]
        exact List.mem_cons_of_mem _ (mem_updateFirst_of_neg p f ys x hmem hpx)

theorem find?_updateFirst {α : Type} (p : α → Bool) (f : α → α) :
    ∀ l : List α, ∀ a : α, l.find? p = some a → p (f a) = true →
      (updateFirst p f l).find? p = some (f a)
  | x :: xs, a, hfind, hfa => by
    by_cases hpx : p x = true
    · rw [List.find?_cons_of_pos _ hpx] at hfind
      cases hfind
      rw [updateFirst_cons_of_pos p f _ _ hpx]
      exact List.find?_cons_of_pos _ hfa
    · have hpx' : p x = false := Bool.eq_false_iff.mpr hpx
      rw [List.find?_cons_of_neg _ hpx] at hfind
      simp only [updateFirst, hpx', if_neg Bool.false_ne_true]
      rw [List.find?_cons_of_neg _ hpx]
      exact find?_updateFirst p f xs a hfind hfa

theorem find?_decomp {α : Type} (p : α → Bool) :
    ∀ l : List α, ∀ a : α, l.find? p = some a →
      ∃ l₁ l₂, l = l₁ ++ a :: l₂ ∧ ∀ x ∈ l₁, p x = false
  | x :: xs, a, hfind => by
    by_cases hpx : p x = true
    · rw [List.find?_cons_of_pos _ hpx] at hfind
      cases hfind
      exact ⟨[], xs, rfl, by simp⟩
    · rw [List.find?_cons_of_neg _ hpx] at hfind
      obtain ⟨l₁, l₂, rfl, hl₁⟩ := find?_decomp p xs a hfind
      refine ⟨x :: l₁, l₂, rfl, ?_⟩
      intro y hy
      rcases List.mem_cons.mp hy with rfl | hmem
      · exact Bool.eq_false_iff.mpr hpx
      · exact hl₁ y hmem

end CampusPortal

namespace CampusPortal

/-! ## Claim C9 — empty field subset on `PUT /users/{id}` -/

/-- C9: when the supplied subset of user fields is empty, `update_user`
returns the `{updated: false}` acknowledgement and neither reads nor
writes the store: the store (every record and timestamp) is returned
unchanged. -/
theorem update_user_empty_patch_unchanged (s : UserStore) (idStr : String)
    (p : UpdateUserRequest) (now : Nat) (hp : p.isEmptyPatch = true) :
    update_user (some s) idStr p now = (some s, .unchanged) := by
  simp [update_user, hp]

/-- Witness for C9 at a concrete store, id string and empty payload. -/
theorem update_user_empty_patch_unchanged_witness :
    update_user (some (⟨[], 0⟩ : UserStore)) "zzz" ⟨none, none, none, none⟩ 9 =
      (some (⟨[], 0⟩ : UserStore), .unchanged) :=
  update_user_empty_patch_unchanged ⟨[], 0⟩ "zzz" ⟨none, none, none, none⟩ 9 rfl

/-! ## Claim C10 — malformed path ids -/

/-- C10 fails as stated: on `PUT /users/{id}` with an empty field subset,
the handler answers `{updated: false}` before ever decoding the path id,
so a syntactically invalid id ("zzz") does not produce the 400
"Invalid ID format" response the claim requires for every request body. -/
theorem update_user_invalid_id_empty_patch_counterexample :
    decodeOid "zzz" = none ∧
    update_user (some (⟨[], 0⟩ : UserStore)) "zzz" ⟨none, none, none, none⟩ 0 =
      (some (⟨[], 0⟩ : UserStore), .unchanged) :=
  ⟨by decide, rfl⟩

/-- C10 (amended): a syntactically invalid path id yields the 400
"Invalid ID format" response on `PUT /events/{id}`, `DELETE /events/{id}`
and on `PUT /users/{id}` with a non-empty field subset; with an empty
field subset `PUT /users/{id}` instead returns `{updated: false}` without
decoding the id. -/
theorem invalid_id_rejected_400 (s : UserStore) (es : EventStore) (idStr : String)
    (p : UpdateUserRequest) (ep : EventCreateRequest) (now : Nat)
    (hdec : decodeOid idStr = none) (hp : p.isEmptyPatch = false) :
    update_user (some s) idStr p now = (some s, .httpError 400 "Invalid ID format") ∧
    update_event (some es) idStr ep = (some es, .httpError 400 "Invalid ID format") ∧
    delete_event (some es) idStr = (some es, .httpError 400 "Invalid ID format") := by
  refine ⟨?_, ?_, ?_⟩ <;> simp [update_user, update_event, delete_event, hdec, hp]

/-- Witness for the amended C10 at a concrete invalid id and non-empty
payload. -/
theorem invalid_id_rejected_400_witness :
    update_user (some (⟨[], 0⟩ : UserStore)) "zzz" ⟨some "N", none, none, none⟩ 3 =
      (some (⟨[], 0⟩ : UserStore), .httpError 400 "Invalid ID format") ∧
    delete_event (some (⟨[], 0⟩ : EventStore)) "zzz" =
      (some (⟨[], 0⟩ : EventStore), .httpError 400 "Invalid ID format") :=
  have h := invalid_id_rejected_400 ⟨[], 0⟩ ⟨[], 0⟩ "zzz" ⟨some "N", none, none, none⟩
    ⟨"t", none, 0, none, "teacher"⟩ 3 (by decide) rfl
  ⟨h.1, h.2.2⟩

/-! ## Claim C5 — behaviour when no store connection is configured -/

/-- C5 fails as stated: `list_events` performs a store operation but has no
store-unconfigured guard, so with no connection configured it raises an
unhandled `AttributeError` (`db.event` on `None`) instead of returning a
controlled 500-class service-unavailable response. -/
theorem list_events_crashes_without_store :
    list_events none 100 = .crash "AttributeError" := rfl

/-- C5 (amended): only `demo_login` and `update_user` guard against an
unconfigured store, answering 500 "Database not configured"; the other
store-using handlers (here `list_events`, `update_event`, `delete_event`)
access the connection unconditionally and crash with an unhandled
`AttributeError`. -/
theorem store_unconfigured_outcomes (p : DemoLoginRequest) (idStr : String)
    (up : UpdateUserRequest) (now limit : Nat) (ep : EventCreateRequest) :
    demo_login none p now = (none, .httpError 500 "Database not configured") ∧
    update_user none idStr up now = (none, .httpError 500 "Database not configured") ∧
    list_events none limit = .crash "AttributeError" ∧
    update_event none idStr ep = (none, .crash "AttributeError") ∧
    delete_event none idStr = (none, .crash "AttributeError") :=
  ⟨rfl, rfl, rfl, rfl, rfl⟩

/-! ## Claim C2 — manual-percentage range validation -/

/-- C2 fails against the code, which contradicts its own schema
(`AttendanceOverride.manual_percentage` is declared with `ge=0, le=100` in
`src/schemas.py`): when an override for the roll already exists,
`set_manual_percentage` `$set`s the raw request payload without any
validation, so an out-of-range value (here 150) is persisted and echoed
back instead of being rejected before persistence. -/
theorem set_manual_percentage_update_bypasses_validation :
    ¬ ((150 : ℚ) ≤ 100) ∧
    set_manual_percentage ⟨[⟨1, "R1", some 50⟩], 2⟩ "R1" 150 =
      (⟨[⟨1, "R1", some 150⟩], 2⟩, .ok (some ⟨1, "R1", some 150⟩)) :=
  ⟨by norm_num, rfl⟩

/-! ## Claim C8 — update/delete of a nonexistent event -/

/-- C8: when a well-formed event id matches no stored event, both
`update_event` and `delete_event` answer 404 "Event not found" and leave
the event collection exactly as it was. -/
theorem event_missing_id_yields_404_no_write (s : EventStore) (idStr : String) (i : Nat)
    (p : EventCreateRequest) (hdec : decodeOid idStr = some i)
    (hno : ∀ d ∈ s.docs, d._id ≠ i) :
    update_event (some s) idStr p = (some s, .httpError 404 "Event not found") ∧
    delete_event (some s) idStr = (some s, .httpError 404 "Event not found") := by
  have hall : ∀ d ∈ s.docs, (fun d : EventDoc => d._id == i) d = false := by
    intro d hd
    simpa using hno d hd
  have hany : s.docs.any (fun d => d._id == i) = false := by
    rw [List.any_eq_false]
    intro d hd
    simp [hno d hd]
  have hup := updateFirst_of_forall_not (fun d : EventDoc => d._id == i)
    (fun d => { d with title := p.title, description := p.description,
                       date := p.date, location := p.location,
                       created_by_role := p.created_by_role }) s.docs hall
  have her := List.eraseP_of_forall_not (p := fun d : EventDoc => d._id == i)
    (l := s.docs) (fun d hd => by simp [hno d hd])
  constructor
  · simp [update_event, hdec, matchCount, hany, hup]
  · simp [delete_event, hdec, matchCount, hany, her]

/-! ## Claim C6 — bulk attendance marking -/

/-- The insertion loop inserts one record per entry, in order, consuming
consecutive generated ids. -/
theorem markLoop_spec (dateV : Nat) :
    ∀ (entries : List AttendanceMark) (s : AttStore),
      markLoop dateV s entries =
        (⟨s.docs ++ (entries.zip (List.range' s.nextId entries.length)).map
            (fun pe => ⟨pe.2, pe.1.roll, dateV, pe.1.status, "teacher"⟩),
          s.nextId + entries.length⟩,
         List.range' s.nextId entries.length)
  | [], s => by simp [markLoop]
  | e :: rest, s => by
    have ih := markLoop_spec dateV rest
      ⟨s.docs ++ [⟨s.nextId, e.roll, dateV, e.status, "teacher"⟩], s.nextId + 1⟩
    simp only [markLoop, create_document_att, ih, List.length_cons, List.range'_succ,
      List.zip_cons_cons, List.map_cons, List.cons_append, List.append_assoc,
      List.singleton_append]
    refine Prod.ext ?_ rfl
    refine congrArg₂ AttStore.mk rfl ?_
    omega

/-- C6: `mark_attendance` rejects an empty entries list with a 400
"No entries to mark" and inserts nothing; for `n > 0` entries it inserts
exactly one `AttendanceRecord` per entry and answers
`inserted = n` together with the list of the `n` generated ids. -/
theorem mark_attendance_correct (s : AttStore) (dateV : Nat) (entries : List AttendanceMark) :
    (entries = [] →
      mark_attendance s dateV entries = (s, .httpError 400 "No entries to mark")) ∧
    (entries ≠ [] →
      (mark_attendance s dateV entries).2 =
        .ok (entries.length, List.range' s.nextId entries.length) ∧
      (mark_attendance s dateV entries).1.docs =
        s.docs ++ (entries.zip (List.range' s.nextId entries.length)).map
          (fun pe => ⟨pe.2, pe.1.roll, dateV, pe.1.status, "teacher"⟩)) := by
  constructor
  · rintro rfl
    rfl
  · intro hne
    have hemp : entries.isEmpty = false := by
      cases entries with
      | nil => exact absurd rfl hne
      | cons a l => rfl
    constructor
    · simp [mark_attendance, hemp, markLoop_spec]
    · simp [mark_attendance, hemp, markLoop_spec]

/-- Witness for C6: the empty batch is rejected, and a singleton batch
inserts one record and returns its id. -/
theorem mark_attendance_correct_witness :
    mark_attendance (⟨[], 0⟩ : AttStore) 7 [] =
      ((⟨[], 0⟩ : AttStore), .httpError 400 "No entries to mark") ∧
    (mark_attendance (⟨[], 0⟩ : AttStore) 7 [⟨"R1", "present"⟩]).2 = .ok (1, [0]) := by
  refine ⟨(mark_attendance_correct ⟨[], 0⟩ 7 []).1 rfl, ?_⟩
  have h := (mark_attendance_correct ⟨[], 0⟩ 7 [⟨"R1", "present"⟩]).2 (by simp)
  simpa using h.1

/-! ## Claim C1 — attendance summary -/

theorem pyRound2_zero : pyRound2 0 = 0 := by
  unfold pyRound2 roundHalfEven ratFloor
  norm_num

/-- C1: the attendance summary reports the persisted present and absent
counts for the roll; its percentage is the numeric override rounded to two
decimals when one exists, and otherwise `round(P/(P+A)*100, 2)` when
`P+A > 0` and `0.0` when `P+A = 0`. -/
theorem attendance_summary_matches_spec (roll : String)
    (recs : List AttendanceRecordDoc) (ovs : List OverrideDoc) (P A : Nat)
    (hP : P = (recs.filter (fun r => r.roll == roll && r.status == "present")).length)
    (hA : A = (recs.filter (fun r => r.roll == roll && r.status == "absent")).length) :
    (attendance_summary recs ovs roll).presentDays = P ∧
    (attendance_summary recs ovs roll).absentDays = A ∧
    (∀ ov, ovs.find? (fun o => o.roll == roll) = some ov →
      ∀ m, ov.manual_percentage = some m →
        (attendance_summary recs ovs roll).percentage = pyRound2 m) ∧
    ((ovs.find? (fun o => o.roll == roll)).bind (fun o => o.manual_percentage) = none →
      (0 < P + A →
        (attendance_summary recs ovs roll).percentage =
          pyRound2 ((P : ℚ) / ((P : ℚ) + (A : ℚ)) * 100)) ∧
      (P + A = 0 → (attendance_summary recs ovs roll).percentage = 0)) := by
  subst hP hA
  refine ⟨by simp [attendance_summary], by simp [attendance_summary], ?_, ?_⟩
  · intro ov hfind m hm
    simp [attendance_summary, hfind, hm]
  · intro hnone
    have hpct : (attendance_summary recs ovs roll).percentage =
        pyRound2 (if 0 <
            (recs.filter (fun r => r.roll == roll && r.status == "present")).length +
            (recs.filter (fun r => r.roll == roll && r.status == "absent")).length then
          ((recs.filter (fun r => r.roll == roll && r.status == "present")).length : ℚ) /
            (((recs.filter (fun r => r.roll == roll && r.status == "present")).length +
              (recs.filter (fun r => r.roll == roll && r.status == "absent")).length : Nat) : ℚ)
            * 100
        else 0) := by
      cases hfind : ovs.find? (fun o => o.roll == roll) with
      | none => simp [attendance_summary, hfind]
      | some ov =>
        have hmp : ov.manual_percentage = none := by
          rw [hfind] at hnone
          simpa using hnone
        simp [attendance_summary, hfind, hmp]
    constructor
    · intro hpos
      rw [hpct, if_pos hpos]
      congr 1
      push_cast
      ring
    · intro hzero
      rw [hpct, if_neg (by omega)]
      exact pyRound2_zero

/-- Witness for C1, the worked example of the spec: three present records
and one absent record for roll R1 and no override give
`{presentDays: 3, absentDays: 1, percentage: 75.0}`. -/
theorem attendance_summary_matches_spec_witness :
    (attendance_summary
        [⟨0, "R1", 1, "present", "teacher"⟩, ⟨1, "R1", 2, "present", "teacher"⟩,
         ⟨2, "R1", 3, "present", "teacher"⟩, ⟨3, "R1", 4, "absent", "teacher"⟩]
        [] "R1").presentDays = 3 ∧
    (attendance_summary
        [⟨0, "R1", 1, "present", "teacher"⟩, ⟨1, "R1", 2, "present", "teacher"⟩,
         ⟨2, "R1", 3, "present", "teacher"⟩, ⟨3, "R1", 4, "absent", "teacher"⟩]
        [] "R1").absentDays = 1 ∧
    (attendance_summary
        [⟨0, "R1", 1, "present", "teacher"⟩, ⟨1, "R1", 2, "present", "teacher"⟩,
         ⟨2, "R1", 3, "present", "teacher"⟩, ⟨3, "R1", 4, "absent", "teacher"⟩]
        [] "R1").percentage = 75 := by
  have h := attendance_summary_matches_spec "R1"
    [⟨0, "R1", 1, "present", "teacher"⟩, ⟨1, "R1", 2, "present", "teacher"⟩,
     ⟨2, "R1", 3, "present", "teacher"⟩, ⟨3, "R1", 4, "absent", "teacher"⟩]
    [] 3 1 rfl rfl
  refine ⟨h.1, h.2.1, ?_⟩
  have hpct := (h.2.2.2 rfl).1 (by norm_num)
  rw [hpct]
  have harg : ((3 : ℕ) : ℚ) / (((3 : ℕ) : ℚ) + ((1 : ℕ) : ℚ)) * 100 = 75 := by
    push_cast
    norm_num
  rw [harg]
  unfold pyRound2 roundHalfEven ratFloor
  norm_num

/-! ## Claim C3 — demo-login field patching -/

/-- C3 fails as stated: an existing user has `mobile = "123"` and
`roll = "R1"`; a demo-login for the same email that omits both fields
(`mobile = roll = None`) overwrites them with null instead of keeping the
previous values, because the handler `$set`s `payload.model_dump()`
wholesale. -/
theorem demo_login_overwrites_omitted_fields_counterexample :
    (demo_login
        (some (⟨[⟨0, "student", "Bob", "bob@campus.edu", some "123", some "R1", 5⟩], 1⟩ :
          UserStore))
        ⟨"student", "Bob", "bob@campus.edu", none, none⟩ 6).1 =
      some (⟨[⟨0, "student", "Bob", "bob@campus.edu", none, none, 6⟩], 1⟩ : UserStore) :=
  rfl

/-- C3 (amended): on an email match, demo-login writes ALL five payload
fields — omitted optional fields are stored as null rather than keeping
their previous values — plus `updated_at`, onto the first record whose id
matches the found record; that record's `_id` and every record with a
different id are left unchanged. -/
theorem demo_login_sets_all_payload_fields (s : UserStore) (p : DemoLoginRequest) (now : Nat)
    (ex : UserDoc) (hfind : s.docs.find? (fun d => d.email == p.email) = some ex) :
    ∃ s', (demo_login (some s) p now).1 = some s' ∧
      s'.nextId = s.nextId ∧
      s'.docs.find? (fun d => d._id == ex._id) =
        some ⟨ex._id, p.role, p.name, p.email, p.mobile, p.roll, now⟩ ∧
      ∀ d ∈ s.docs, d._id ≠ ex._id → d ∈ s'.docs := by
  refine ⟨⟨updateFirst (fun d => d._id == ex._id) (applyDemoLoginSet p now) s.docs, s.nextId⟩,
    by simp [demo_login, hfind], rfl, ?_, ?_⟩
  · have hsome : (s.docs.find? (fun d => d._id == ex._id)).isSome :=
      List.find?_isSome.mpr ⟨ex, List.mem_of_find?_eq_some hfind, by simp⟩
    obtain ⟨a, ha⟩ := Option.isSome_iff_exists.mp hsome
    have hpa : a._id = ex._id := by simpa using List.find?_some ha
    have hfa : (applyDemoLoginSet p now a)._id = ex._id := hpa
    have := find?_updateFirst (fun d => d._id == ex._id) (applyDemoLoginSet p now)
      s.docs a ha (by simp [applyDemoLoginSet, hpa])
    rw [this]
    simp [applyDemoLoginSet, hpa]
  · intro d hd hne
    exact mem_updateFirst_of_neg _ _ s.docs d hd (by simpa using hne)

/-- Witness for the amended C3 at a concrete store: the matched record
receives all payload fields (omitted mobile becomes null) and keeps its
id. -/
theorem demo_login_sets_all_payload_fields_witness :
    ∃ s', (demo_login
        (some (⟨[⟨0, "student", "Bob", "bob@campus.edu", some "123", some "R1", 5⟩], 1⟩ :
          UserStore))
        ⟨"teacher", "Bobby", "bob@campus.edu", none, some "R9"⟩ 6).1 = some s' ∧
      s'.nextId = 1 ∧
      s'.docs.find? (fun d => d._id == 0) =
        some ⟨0, "teacher", "Bobby", "bob@campus.edu", none, some "R9", 6⟩ ∧
      ∀ d ∈ ([⟨0, "student", "Bob", "bob@campus.edu", some "123", some "R1", 5⟩] :
          List UserDoc), d._id ≠ 0 → d ∈ s'.docs :=
  demo_login_sets_all_payload_fields
    ⟨[⟨0, "student", "Bob", "bob@campus.edu", some "123", some "R1", 5⟩], 1⟩
    ⟨"teacher", "Bobby", "bob@campus.edu", none, some "R9"⟩ 6
    ⟨0, "student", "Bob", "bob@campus.edu", some "123", some "R1", 5⟩ rfl

/-! ## Claim C4 — demo-login upsert convergence -/

/-- One demo-login call, from any sane store holding at most one record
with the payload's email, leaves exactly one record with that email, whose
mutable fields are the payload's; store sanity is preserved. -/
theorem demo_login_step (s : UserStore) (p : DemoLoginRequest) (now : Nat)
    (hwf : s.wf) (hcount : countEmail s p.email ≤ 1) :
    ∃ s', (demo_login (some s) p now).1 = some s' ∧ s'.wf ∧
      countEmail s' p.email = 1 ∧
      ∀ d ∈ s'.docs, d.email = p.email →
        d.role = p.role ∧ d.name = p.name ∧ d.mobile = p.mobile ∧
        d.roll = p.roll ∧ d.updated_at = now := by
  cases hfind : s.docs.find? (fun d => d.email == p.email) with
  | none =>
    have hall : ∀ d ∈ s.docs, ¬ d.email = p.email := by
      intro d hd
      simpa using List.find?_eq_none.mp hfind d hd
    refine ⟨⟨s.docs ++ [⟨s.nextId, p.role, p.name, p.email, p.mobile, p.roll, now⟩],
      s.nextId + 1⟩, by simp [demo_login, hfind], ⟨?_, ?_⟩, ?_, ?_⟩
    · rw [List.map_append]
      refine List.nodup_append.mpr ⟨hwf.1, List.nodup_singleton _, ?_⟩
      intro x hx hx'
      obtain ⟨d, hd, rfl⟩ := List.mem_map.mp hx
      have : d._id = s.nextId := by simpa using hx'
      exact absurd this (Nat.ne_of_lt (hwf.2 d hd))
    · intro d hd
      rcases List.mem_append.mp hd with hmem | hone
      · exact Nat.lt_trans (hwf.2 d hmem) (Nat.lt_succ_self _)
      · rw [List.mem_singleton.mp hone]
        exact Nat.lt_succ_self _
    · unfold countEmail
      rw [List.filter_append, List.filter_eq_nil_iff.mpr (fun d hd => by simp [hall d hd])]
      simp
    · intro d hd hde
      rcases List.mem_append.mp hd with hmem | hone
      · exact absurd hde (hall d hmem)
      · rw [List.mem_singleton.mp hone]
        exact ⟨rfl, rfl, rfl, rfl, rfl⟩
  | some ex =>
    have hexe : ex.email = p.email := by simpa using List.find?_some hfind
    obtain ⟨l₁, l₂, hdecomp, hl₁⟩ := find?_decomp _ s.docs ex hfind
    have hnodup : ((l₁ ++ ex :: l₂).map (fun d => d._id)).Nodup := by
      rw [← hdecomp]
      exact hwf.1
    rw [List.map_append, List.map_cons] at hnodup
    obtain ⟨hn₁, hn₂, hdisj⟩ := List.nodup_append.mp hnodup
    have hid_notin_l₁ : ex._id ∉ l₁.map (fun d => d._id) := fun hmem =>
      hdisj hmem (List.mem_cons_self _ _)
    have hid_notin_l₂ : ex._id ∉ l₂.map (fun d => d._id) := (List.nodup_cons.mp hn₂).1
    have hl₁pr : ∀ x ∈ l₁, (fun d : UserDoc => d._id == ex._id) x = false := by
      intro x hx
      have : x._id ≠ ex._id := fun h => hid_notin_l₁ (h ▸ List.mem_map_of_mem _ hx)
      simpa using this
    have hupd : updateFirst (fun d : UserDoc => d._id == ex._id)
        (applyDemoLoginSet p now) s.docs =
        l₁ ++ applyDemoLoginSet p now ex :: l₂ := by
      rw [hdecomp, updateFirst_append_left _ _ _ _ hl₁pr,
        updateFirst_cons_of_pos _ _ _ _ (by simp)]
    have hfilter₂ : l₂.filter (fun d => d.email == p.email) = [] := by
      have hc : countEmail s p.email =
          (l₁.filter (fun d => d.email == p.email)).length +
          (1 + (l₂.filter (fun d => d.email == p.email)).length) := by
        unfold countEmail
        rw [hdecomp, List.filter_append, List.length_append,
          List.filter_cons_of_pos (by simp [hexe])]
        simp only [List.length_cons]
        omega
      rw [hc] at hcount
      have : (l₂.filter (fun d => d.email == p.email)).length = 0 := by omega
      exact List.length_eq_zero.mp this
    refine ⟨⟨l₁ ++ applyDemoLoginSet p now ex :: l₂, s.nextId⟩,
      by simp [demo_login, hfind, hupd], ⟨?_, ?_⟩, ?_, ?_⟩
    · rw [List.map_append, List.map_cons]
      have : (applyDemoLoginSet p now ex)._id = ex._id := rfl
      rw [this]
      exact List.nodup_append.mpr ⟨hn₁, hn₂, hdisj⟩
    · intro d hd
      rcases List.mem_append.mp hd with hmem | hrest
      · exact hwf.2 d (hdecomp ▸ List.mem_append_left _ hmem)
      · rcases List.mem_cons.mp hrest with rfl | hmem₂
        · exact hwf.2 ex (hdecomp ▸ List.mem_append_right _ (List.mem_cons_self _ _))
        · exact hwf.2 d (hdecomp ▸ List.mem_append_right _ (List.mem_cons_of_mem _ hmem₂))
    · unfold countEmail
      rw [List.filter_append, List.filter_eq_nil_iff.mpr (fun d hd => by simp [hl₁ d hd])]
      rw [List.filter_cons_of_pos (by simp [applyDemoLoginSet]), hfilter₂]
      simp
    · intro d hd hde
      rcases List.mem_append.mp hd with hmem | hrest
      · have := hl₁ d hmem
        simp [hde] at this
      · rcases List.mem_cons.mp hrest with rfl | hmem₂
        · exact ⟨rfl, rfl, rfl, rfl, rfl⟩
        · have : d ∈ l₂.filter (fun d => d.email == p.email) :=
            List.mem_filter.mpr ⟨hmem₂, by simp [hde]⟩
          rw [hfilter₂] at this
          exact absurd this (List.not_mem_nil d)

/-- C4: two sequential demo-logins with the same email (starting from a
sane store holding at most one record with that email) leave exactly one
record with that email, and its fields are the second call's payload. -/
theorem demo_login_twice_converges (s : UserStore) (p₁ p₂ : DemoLoginRequest) (t₁ t₂ : Nat)
    (hemail : p₁.email = p₂.email) (hwf : s.wf) (hcount : countEmail s p₂.email ≤ 1) :
    ∃ s₁ s₂,
      (demo_login (some s) p₁ t₁).1 = some s₁ ∧
      (demo_login (some s₁) p₂ t₂).1 = some s₂ ∧
      countEmail s₂ p₂.email = 1 ∧
      ∀ d ∈ s₂.docs, d.email = p₂.email →
        d.role = p₂.role ∧ d.name = p₂.name ∧ d.mobile = p₂.mobile ∧
        d.roll = p₂.roll ∧ d.updated_at = t₂ := by
  obtain ⟨s₁, h1, hwf1, hc1, _⟩ := demo_login_step s p₁ t₁ hwf (by rw [hemail]; exact hcount)
  obtain ⟨s₂, h2, _, hc2, hf2⟩ := demo_login_step s₁ p₂ t₂ hwf1 (by rw [← hemail]; omega)
  exact ⟨s₁, s₂, h1, h2, hc2, hf2⟩

/-- Witness for C4: from an empty store, two logins for the same email
(the second changing name and mobile) leave one record matching the
second payload. -/
theorem demo_login_twice_converges_witness :
    ∃ s₁ s₂,
      (demo_login (some (⟨[], 0⟩ : UserStore))
        ⟨"student", "Bob", "bob@campus.edu", none, some "R1"⟩ 1).1 = some s₁ ∧
      (demo_login (some s₁)
        ⟨"student", "Bobby", "bob@campus.edu", some "999", some "R1"⟩ 2).1 = some s₂ ∧
      countEmail s₂ "bob@campus.edu" = 1 ∧
      ∀ d ∈ s₂.docs, d.email = "bob@campus.edu" →
        d.role = "student" ∧ d.name = "Bobby" ∧ d.mobile = some "999" ∧
        d.roll = some "R1" ∧ d.updated_at = 2 :=
  demo_login_twice_converges ⟨[], 0⟩
    ⟨"student", "Bob", "bob@campus.edu", none, some "R1"⟩
    ⟨"student", "Bobby", "bob@campus.edu", some "999", some "R1"⟩ 1 2 rfl
    ⟨List.nodup_nil, by simp⟩ (by simp [countEmail])

/-! ## Claim C7 — idempotence of `serialize_id` -/

theorem serializeVal_idem (v : Value) : serializeVal (serializeVal v) = serializeVal v := by
  cases v <;> rfl

theorem map_serialize_idem (l : Doc) :
    List.map (fun p : String × Value => (p.1, serializeVal p.2))
        (List.map (fun p : String × Value => (p.1, serializeVal p.2)) l) =
      List.map (fun p : String × Value => (p.1, serializeVal p.2)) l := by
  induction l with
  | nil => rfl
  | cons x xs ih => simp [ih, serializeVal_idem]

theorem Doc.get_map_serialize (l : Doc) (k : String) :
    Doc.get (List.map (fun p : String × Value => (p.1, serializeVal p.2)) l) k =
      (Doc.get l k).map serializeVal := by
  induction l with
  | nil => rfl
  | cons x xs ih =>
    by_cases hk : x.1 = k
    · simp [Doc.get, List.find?_cons, hk]
    · simpa [Doc.get, List.find?_cons, hk] using ih

theorem Doc.get_eq_none_of_keys (l : Doc) (k : String) (h : ∀ q ∈ l, q.1 ≠ k) :
    Doc.get l k = none := by
  unfold Doc.get
  rw [List.find?_eq_none.mpr]
  · rfl
  · intro q hq
    simp [h q hq]

theorem Doc.mem_set (l : Doc) (k : String) (v : Value) (q : String × Value)
    (hq : q ∈ Doc.set l k v) : q.1 = k ∨ q ∈ l := by
  unfold Doc.set at hq
  by_cases hfind : (List.find? (fun p => p.1 = k) l).isSome
  · rw [if_pos hfind] at hq
    obtain ⟨p, hp, hpq⟩ := List.mem_map.mp hq
    by_cases hpk : p.1 = k
    · left
      rw [if_pos hpk] at hpq
      rw [← hpq]
    · right
      rw [if_neg hpk] at hpq
      rw [← hpq]
      exact hp
  · rw [if_neg hfind] at hq
    rcases List.mem_append.mp hq with hmem | hone
    · exact Or.inr hmem
    · left
      rw [List.mem_singleton.mp hone]

theorem Doc.mem_erase_ne (l : Doc) (k : String) (q : String × Value)
    (hq : q ∈ Doc.erase l k) : q.1 ≠ k := by
  unfold Doc.erase at hq
  simpa using List.of_mem_filter hq

theorem Doc.set_ne_nil (l : Doc) (k : String) (v : Value) : Doc.set l k v ≠ [] := by
  unfold Doc.set
  by_cases hfind : (List.find? (fun p => p.1 = k) l).isSome
  · rw [if_pos hfind]
    intro hmap
    rw [List.map_eq_nil_iff.mp hmap] at hfind
    simp [List.find?] at hfind
  · rw [if_neg hfind]
    simp

theorem serialize_id_no_id (doc : Doc) (h1 : doc ≠ []) (h2 : Doc.get doc "_id" = none) :
    serialize_id doc = List.map (fun p : String × Value => (p.1, serializeVal p.2)) doc := by
  unfold serialize_id
  rw [if_neg h1, h2]

/-- C7: `serialize_id` is idempotent — applying it to its own output is a
no-op, so already-external-shaped documents are never double-converted. -/
theorem serialize_id_idempotent (d : Doc) :
    serialize_id (serialize_id d) = serialize_id d := by
  by_cases hd : d = ([] : Doc)
  · rw [hd]
    rfl
  · have hshape : ∃ d1 : Doc, serialize_id d =
        List.map (fun p : String × Value => (p.1, serializeVal p.2)) d1 ∧
        d1 ≠ [] ∧ Doc.get d1 "_id" = none := by
      unfold serialize_id
      rw [if_neg hd]
      cases hget : Doc.get d "_id" with
      | none => exact ⟨d, rfl, hd, hget⟩
      | some v =>
        refine ⟨Doc.set (Doc.erase d "_id") "id" (.str (pyStr v)), rfl,
          Doc.set_ne_nil _ _ _, ?_⟩
        apply Doc.get_eq_none_of_keys
        intro q hq
        rcases Doc.mem_set _ _ _ q hq with hid | hmem
        · rw [hid]
          intro hcontra
          exact absurd hcontra (by decide)
        · exact Doc.mem_erase_ne _ _ q hmem
    obtain ⟨d1, hmap, hne, hnid⟩ := hshape
    have hres_ne : serialize_id d ≠ [] := by
      rw [hmap]
      simpa using hne
    have hres_nid : Doc.get (serialize_id d) "_id" = none := by
      rw [hmap, Doc.get_map_serialize, hnid]
      rfl
    rw [serialize_id_no_id (serialize_id d) hres_ne hres_nid, hmap, map_serialize_idem]

/-- Witness for C8: the all-zero (well-formed) id against an empty event
collection. -/
theorem event_missing_id_yields_404_no_write_witness :
    update_event (some (⟨[], 0⟩ : EventStore)) "000000000000000000000000"
        ⟨"t", none, 0, none, "teacher"⟩ =
      (some (⟨[], 0⟩ : EventStore), .httpError 404 "Event not found") :=
  (event_missing_id_yields_404_no_write ⟨[], 0⟩ "000000000000000000000000" 0
    ⟨"t", none, 0, none, "teacher"⟩ (by decide) (by simp)).1

end CampusPortal
